import Mathlib

/-!
Shallow embedding of `nagare/services/security/oidc_auth.py` (the OIDC
relying-party authentication service) and proofs about its behaviour.

Python strings and byte strings are modelled as `List Char` (`PyStr`), one
element per code point / byte.  Python `dict`s are association lists built
and updated with `dictSet` (later insertion replaces the earlier binding,
mirroring dict semantics).  `None`-able values are `Option`s, and Python
truthiness of strings/floats/dicts is made explicit by `truthy*` helpers.
Code that can raise returns `Except`; the exception classes that matter to
the control flow are distinguished by `PyExn`.  External collaborators
(the `requests` transport, `jose` JWT primitives, the host's
authenticated-encryption `encrypt`/`decrypt` pair) are passed in as
explicit arguments: the environment supplies the HTTP response a request
would have produced, and `send_request` applies `raise_for_status` to it
exactly as the source does.
-/

/-- A Python `str` / `bytes` value, one entry per code point / byte. -/
abbrev PyStr := List Char

/-- Python dict lookup (`d.get(k)` / `d[k]` success case) on an association
list whose keys are unique. -/
def dictGet {β : Type} : List (PyStr × β) → PyStr → Option β
  | [], _ => none
  | (k', v) :: rest, k => if k' = k then some v else dictGet rest k

/-- Python dict update `d[k] = v`: replaces the binding of `k` if present,
otherwise appends it. -/
def dictSet {β : Type} : List (PyStr × β) → PyStr → β → List (PyStr × β)
  | [], k, v => [(k, v)]
  | (k', v') :: rest, k, v => if k' = k then (k, v) :: rest else (k', v') :: dictSet rest k v

/-- Build a Python dict from a list of pairs (dict comprehension: a later
pair with the same key overwrites an earlier one). -/
def pyDictOfPairs {β : Type} (ps : List (PyStr × β)) : List (PyStr × β) :=
  ps.foldl (fun d kv => dictSet d kv.1 kv.2) []

/-- Python `s.split(d)` for a one-character separator `d`. -/
def pySplitCh (d : Char) : PyStr → List PyStr
  | [] => [[]]
  | c :: cs =>
    if c = d then [] :: pySplitCh d cs
    else
      match pySplitCh d cs with
      | [] => [[c]]
      | p :: ps => (c :: p) :: ps

/-- The whitespace characters removed by Python `str.strip()` (the ASCII
ones, which are the only ones arising in HTTP headers). -/
def isSpaceCh (c : Char) : Bool :=
  c.toNat = 32 || c.toNat = 9 || c.toNat = 10 || c.toNat = 13 || c.toNat = 11 || c.toNat = 12

/-- Python `s.strip()`. -/
def pyStrip (s : PyStr) : PyStr :=
  ((s.dropWhile isSpaceCh).reverse.dropWhile isSpaceCh).reverse

/-- An ASCII decimal digit (Python `str.isdigit` restricted to ASCII, the
only digits arising here). -/
def isDigitCh (c : Char) : Bool := 48 ≤ c.toNat && c.toNat ≤ 57

/-- Python `str.isdigit()`: non-empty and all digits. -/
def pyIsDigit (s : PyStr) : Bool := s ≠ [] && s.all isDigitCh

/-- Numeric value of a digit string, most significant digit first: the
computational content of Python `int(s)` on a digit string. -/
def decToNat (s : PyStr) : Nat := s.foldl (fun a c => a * 10 + (c.toNat - 48)) 0

/-- Digit-accumulator loop of decimal rendering; `fuel` bounds the number
of divisions (structural recursion so the kernel can evaluate it). -/
def natToDecGo : Nat → Nat → PyStr → PyStr
  | 0, _, acc => acc
  | fuel + 1, n, acc =>
    if n < 10 then Char.ofNat (48 + n % 10) :: acc
    else natToDecGo fuel (n / 10) (Char.ofNat (48 + n % 10) :: acc)

/-- Decimal rendering of a natural number: Python `b'%d' % n`. -/
def natToDec (n : Nat) : PyStr := natToDecGo (n + 1) n []

/-- Python `int(s)`: strip whitespace, optional sign, then digits; `none`
models the `ValueError` raised on anything else.  (Underscores between
digits, which CPython also accepts, never occur in this protocol.) -/
def pyParseInt (s : PyStr) : Option Int :=
  match pyStrip s with
  | [] => none
  | c :: rest =>
    if c = '-' then
      if pyIsDigit rest then some (-(decToNat rest : Int)) else none
    else if c = '+' then
      if pyIsDigit rest then some ((decToNat rest : Int)) else none
    else if pyIsDigit (c :: rest) then some ((decToNat (c :: rest) : Int)) else none

/-- Truthiness of a `None`-able Python string: `None` and `''` are falsy. -/
def truthyOptStr : Option PyStr → Bool
  | none => false
  | some s => s ≠ []

/-- Truthiness of the `None`-able numeric `jwks_expiration` attribute:
`None` and `0` are falsy. -/
def truthyExpiration : Option Int → Bool
  | none => false
  | some t => t ≠ 0

/-- All code points are ASCII: success of Python `.encode('ascii')` /
`.decode('ascii')`. -/
def pyAscii (s : PyStr) : Bool := s.all (fun c => c.toNat ≤ 127)

/-- The exception classes whose identity matters to the control flow. -/
inductive PyExn : Type where
  | httpError     -- requests.HTTPError, from raise_for_status
  | keyError      -- KeyError, from d[k] on a missing key
  | valueError    -- ValueError, from int(), json(), or tuple unpacking
  | unicodeError  -- UnicodeEncodeError / UnicodeDecodeError
deriving DecidableEq, Repr

/-- Extract the payload of a successful `Except` computation. -/
def exceptGet? {ε α : Type} : Except ε α → Option α
  | .ok a => some a
  | .error _ => none

/-- One entry of the JWKS document's `keys` array: its `kid` member (absent
possible) and the rest of the key object, abstracted as its material. -/
structure Jwk : Type where
  kid : Option PyStr
  material : PyStr
deriving DecidableEq, Repr

/-- Observable content of the HTTP response to the JWKS fetch: the parsed
`keys` member of the JSON body (`certs.json().get('keys', [])`) and the
`Cache-Control` header (`none` models the header being absent, so that
`certs.headers['Cache-Control']` raises `KeyError`). -/
structure JwksResp : Type where
  keys : List Jwk
  cacheControl : Option PyStr
deriving DecidableEq, Repr

/-- Mutable state of the `Authentication` service instance: the attributes
of `self` that the embedded methods read and write. -/
structure Authentication : Type where
  jwks_uri : Option PyStr
  signing_keys : List (PyStr × PyStr)   -- dict kid → key material
  jwks_expiration : Option Int          -- None = no expiration recorded
  issuer : Option PyStr
  endpoints : List (PyStr × Option PyStr)
deriving DecidableEq, Repr

/-- The five logical endpoint names (`Authentication.ENDPOINTS`). -/
def ENDPOINTS : List PyStr :=
  [("authorization_endpoint").data, ("token_endpoint").data,
   ("discovery_endpoint").data, ("userinfo_endpoint").data,
   ("end_session_endpoint").data]

/-- The protocol-reserved claim names (`Authentication.EXCLUDED_CLAIMS`). -/
def EXCLUDED_CLAIMS : List PyStr :=
  [("iss").data, ("aud").data, ("exp").data, ("iat").data,
   ("auth_time").data, ("nonce").data, ("acr").data, ("amr").data,
   ("azp").data, ("session_state").data, ("typ").data, ("nbf").data]

/-- The kid-set computation of line 255 (a set comprehension over the
fetched keys taking each entry's kid member); `none` models the `KeyError` raised when a key has no `kid`. -/
def extractKids (keys : List Jwk) : Option (List PyStr) :=
  keys.mapM Jwk.kid

/-- Equality of two lists viewed as Python sets. -/
def listSetEq (a b : List PyStr) : Bool :=
  a.all (fun x => decide (x ∈ b)) && b.all (fun x => decide (x ∈ a))

/-- Parsing of the `Cache-Control` header value, lines 264-265 of the
source: split on `,`, keep the segments containing `=`, split each on `=`
and strip; `none` models the `ValueError` raised by the `k, v` unpacking
when a segment splits into more than two parts. -/
def parseCacheControl (h : PyStr) : Option (List (PyStr × PyStr)) :=
  ((pySplitCh ',' h).filter (fun v => decide ('=' ∈ v)) |>.mapM fun v =>
      match pySplitCh '=' v with
      | [k, val] => some (pyStrip k, pyStrip val)
      | _ => none)
    |>.map pyDictOfPairs

/-- Staleness guard of `fetch_keys` (line 249):
`self.jwks_uri and self.jwks_expiration and (time.time() > self.jwks_expiration)`. -/
def guardStale (st : Authentication) (now : Int) : Bool :=
  truthyOptStr st.jwks_uri && truthyExpiration st.jwks_expiration &&
    (match st.jwks_expiration with
     | none => false
     | some e => decide (e < now))

/-- Body of `fetch_keys` executed under `self.jwks_lock` (lines 251-273).
`fetch` is the outcome the transport would produce for
`self.send_request('GET', self.jwks_uri)` (`Except.error` models a raise
at the transport layer).  Returns the state after the body together with
the exception escaping it, if any; note that the `self.signing_keys`
assignment happens before the `Cache-Control` header is read, so an
exception raised there leaves the new key mapping in place. -/
def fetch_keys_locked (st : Authentication) (now : Int)
    (fetch : Except Unit JwksResp) : Authentication × Option PyExn :=
  match fetch with
  | .error _ => (st, some .httpError)
  | .ok certs =>
    match extractKids certs.keys with
    | none => (st, some .keyError)
    | some kids =>
      let st1 :=
        if ¬ listSetEq kids (st.signing_keys.map Prod.fst) then
          { st with signing_keys :=
              pyDictOfPairs (certs.keys.map fun k => (k.kid.getD [], k.material)) }
        else st
      match certs.cacheControl with
      | none => (st1, some .keyError)
      | some cc =>
        match parseCacheControl cc with
        | none => (st1, some .valueError)
        | some cacheControls =>
          let max_age := dictGet cacheControls (("max-age").data)
          let expiration : Option Int :=
            match max_age with
            | some ma => if ma ≠ [] ∧ pyIsDigit ma then some (now + (decToNat ma : Int)) else none
            | none => none
          ({ st1 with jwks_expiration := expiration }, none)

/-- Embedding of `Authentication.fetch_keys` (lines 248-273).  The second component
records whether the JWKS HTTP request was issued, the third the exception
escaping the call, if any. -/
def fetch_keys (st : Authentication) (now : Int)
    (fetch : Except Unit JwksResp) : Authentication × Bool × Option PyExn :=
  if guardStale st now then
    let r := fetch_keys_locked st now fetch
    (r.1, true, r.2)
  else (st, false, none)

/-- Parsed view of the discovery document: its `issuer` member (`none`
models absence, so that `r['issuer']` raises `KeyError`) and the endpoint
URL members (`r.get(name)`). -/
structure DiscoveryDoc : Type where
  issuer : Option PyStr
  fields : List (PyStr × PyStr)
deriving DecidableEq, Repr

/-- Embedding of `Authentication.create_discovery_request` (lines 197-200), restricted
to the URL component of the returned request tuple. -/
def create_discovery_request (a : Authentication) : Option PyStr :=
  match dictGet a.endpoints (("discovery_endpoint").data) with
  | none => none
  | some none => none
  | some (some u) => some u

/-- Discovery part of `Authentication.handle_start` (lines 278-288): when
the discovery URL is truthy the document is fetched and the endpoint
mapping is rebuilt from it wholesale, the issuer is taken from it, and
`jwks_uri` is adopted only if not already configured; in every case
`jwks_expiration` is then reset to `time.time() - 1`.  (The trailing
`fetch_keys()` call of `handle_start` is the separately embedded
`fetch_keys`.) -/
def handle_start_discovery (a : Authentication) (now : Int)
    (fetchDoc : Except Unit DiscoveryDoc) : Except PyExn Authentication :=
  if truthyOptStr (create_discovery_request a) then
    match fetchDoc with
    | .error _ => .error .httpError
    | .ok r =>
      match r.issuer with
      | none => .error .keyError
      | some iss =>
        let endpoints := ENDPOINTS.map fun e => (e, dictGet r.fields e)
        let a1 := { a with issuer := some iss, endpoints := endpoints }
        let a2 :=
          match dictGet r.fields (("jwks_uri").data) with
          | some j =>
            if j ≠ [] ∧ ¬ truthyOptStr a.jwks_uri then { a1 with jwks_uri := some j } else a1
          | none => a1
        .ok { a2 with jwks_expiration := some (now - 1) }
  else .ok { a with jwks_expiration := some (now - 1) }

/-- Suffix of a string after its last `#`: `state.rsplit('#', 1)[1]`,
meaningful whenever the string contains a `#` (in `is_auth_response` this
is guaranteed by the preceding `startswith('#')` check). -/
def afterLastHash (s : PyStr) : PyStr :=
  (s.reverse.takeWhile (fun c => c ≠ '#')).reverse

/-- Python `state.startswith('#')`. -/
def startsWithHash : PyStr → Bool
  | [] => false
  | c :: _ => c = '#'

/-- Truthiness of the `code` query parameter (`None` when absent). -/
def truthyCode : Option PyStr → Bool
  | none => false
  | some c => c ≠ []

/-- Embedding of `Authentication.is_auth_response` (lines 304-318).  `decrypt` is the
host's authenticated-decryption collaborator inherited from
`cookie_auth`; its `Except.error` outcome models `InvalidToken`, the only
exception the method catches.  Other failures escape: a non-ASCII state
suffix (`state.encode('ascii')`), a non-ASCII plaintext
(`.decode('ascii')`), a plaintext without exactly three `#`-separated
fields (tuple unpacking), or non-numeric id fields (`int()`). -/
def is_auth_response (decrypt : PyStr → Except Unit PyStr)
    (params : List (PyStr × PyStr)) :
    Except PyExn (Option PyStr × Int × Int × PyStr) :=
  let state := (dictGet params (("state").data)).getD []
  let code := dictGet params (("code").data)
  if truthyCode code ∧ startsWithHash state then
    let state1 := afterLastHash state
    if pyAscii state1 then
      match decrypt state1 with
      | .error _ => .ok (none, 0, 0, [])   -- except InvalidToken: code = None
      | .ok plain =>
        if pyAscii plain then
          match pySplitCh '#' plain with
          | [sid, stid, aid] =>
            match pyParseInt sid, pyParseInt stid with
            | some i, some j => .ok (code, i, j, aid)
            | _, _ => .error .valueError
          | _ => .error .valueError
        else .error .unicodeError
    else .error .unicodeError
  else .ok (code, 0, 0, [])

/-- The packed state blob of `create_auth_request` (line 203):
`b'%d#%d#%s' % (session_id, state_id, (action_id or '').encode('ascii'))`.
The claims using it carry the ASCII-ness of `action_id` as a hypothesis,
matching the `encode('ascii')` success. -/
def stateBytes (session_id state_id : Nat) (action_id : Option PyStr) : PyStr :=
  natToDec session_id ++ '#' :: (natToDec state_id ++ '#' :: action_id.getD [])

/-- The `state` query parameter built by `create_auth_request` (line 212):
`'#{}#{}'.format(self.ident, self.encrypt(state).decode('ascii'))`, with
`encrypt` the host's authenticated-encryption collaborator. -/
def create_auth_request_state (encrypt : PyStr → PyStr) (ident : PyStr)
    (session_id state_id : Nat) (action_id : Option PyStr) : PyStr :=
  '#' :: (ident ++ '#' :: encrypt (stateBytes session_id state_id action_id))

/-- Parsed view of the token endpoint's JSON body: the members the code
reads.  A `none` member is absent from the object. -/
structure TokensJson : Type where
  id_token : Option PyStr
  access_token : Option PyStr
  refresh_token : Option PyStr
  error : Option PyStr
  error_description : Option PyStr
deriving DecidableEq, Repr

/-- Observable content of the HTTP response to the token-endpoint
exchange: status code, `content-type` header, JSON body (`none` models a
body on which `.json()` raises) and raw text. -/
structure TokenHttpResp : Type where
  status_code : Nat
  content_type : Option PyStr
  body : Option TokensJson
  text : PyStr
deriving DecidableEq, Repr

/-- Embedding of `Authentication.send_request` (lines 184-195) applied to the response
the transport produced: `r.raise_for_status()` raises `HTTPError` exactly
when the status code is in `[400, 600)`. -/
def send_request (r : TokenHttpResp) : Except PyExn TokenHttpResp :=
  if 400 ≤ r.status_code ∧ r.status_code < 600 then .error .httpError else .ok r

/-- The key passed to `jwt.decode` (line 378):
`self.signing_keys.get(headers.get('kid'), self.signing_keys)` — a single
key when the header names a known `kid`, the whole mapping otherwise. -/
inductive KeyChoice : Type where
  | single (k : PyStr)
  | all (m : List (PyStr × PyStr))
deriving DecidableEq, Repr

/-- Embedding of `Authentication.request_credentials` (lines 355-404), with the `jose`
library collaborators as arguments: `getHeader` is
`jws.get_unverified_header` and `jwtDecode` is `jwt.decode` with the
configured verification options; an `Except.error` from either models
`JOSEError`, which the method catches and logs.  `resp` is the response
the transport produced for the code-exchange request; `send_request`
applies `raise_for_status` to it first.  The logging calls and the
`QUERY_STRING` rewrite for a pending `action_id` have no effect on the
returned credentials and are omitted. -/
def request_credentials
    (getHeader : PyStr → Except Unit (List (PyStr × PyStr)))
    (jwtDecode : KeyChoice → PyStr → Except Unit (List (PyStr × PyStr)))
    (signing_keys : List (PyStr × PyStr))
    (resp : TokenHttpResp) : Except PyExn (List (PyStr × PyStr)) :=
  match send_request resp with
  | .error e => .error e
  | .ok response =>
    if response.status_code = 400 then
      -- parse the JSON error body for logging; credentials stays {}
      match response.content_type with
      | some ct =>
        if ct = ("application/json").data then
          match response.body with
          | none => .error .valueError    -- response.json() raises
          | some _ => .ok []
        else .ok []
      | none => .ok []
    else if response.status_code ≠ 200 then
      .ok []                              -- 'Authentication error' logged
    else
      match response.body with
      | none => .error .valueError        -- response.json() raises
      | some tokens =>
        match tokens.id_token with
        | none => .error .keyError        -- tokens['id_token']
        | some id_token =>
          let verified : Except Unit (List (PyStr × PyStr)) := do
            let headers ← getHeader id_token
            let key : KeyChoice :=
              match dictGet headers (("kid").data) with
              | some kid =>
                match dictGet signing_keys kid with
                | some k => .single k
                | none => .all signing_keys
              | none => .all signing_keys
            jwtDecode key id_token
          match verified with
          | .error _ => .ok []            -- except JOSEError: logged
          | .ok credentials =>
            match tokens.access_token with
            | none => .error .keyError    -- tokens['access_token']
            | some access_token =>
              let credentials := dictSet credentials (("access_token").data) access_token
              let credentials :=
                match tokens.refresh_token with
                | some refresh_token => dictSet credentials (("refresh_token").data) refresh_token
                | none => credentials
              .ok credentials

/-- Embedding of `Authentication.filter_credentials` (lines 347-349). -/
def filter_credentials (credentials : List (PyStr × PyStr)) (to_keep : List PyStr) :
    List (PyStr × PyStr) :=
  credentials.filter fun kv => decide (kv.1 ∈ to_keep)

/-- A session store entry maps a string key to a credentials dict. -/
abbrev Session := List (PyStr × List (PyStr × PyStr))

/-- Truthiness of the session object (`None` and `{}` are falsy). -/
def truthySession : Option Session → Bool
  | none => false
  | some s => s ≠ []

/-- Embedding of `Authentication.store_credentials` (lines 351-353): in session mode
(`cookie` falsy, session truthy) write the credentials filtered to
`{'sub'}` under the key `'nagare.credentials'`; the mutated session is
returned. -/
def store_credentials (cookie : Bool) (session : Option Session)
    (credentials : List (PyStr × PyStr)) : Option Session :=
  match session with
  | some s =>
    if ¬ cookie ∧ s ≠ [] then
      some (dictSet s (("nagare.credentials").data)
        (filter_credentials credentials [("sub").data]))
    else some s
  | none => none

/-- Embedding of `Authentication.retrieve_credentials` (lines 340-345). -/
def retrieve_credentials (cookie : Bool) (session : Option Session) :
    Option PyStr × List (PyStr × PyStr) :=
  match session with
  | none => (none, [])
  | some s =>
    if cookie ∨ s = [] then (none, [])
    else
      let credentials := (dictGet s (("nagare.credentials").data)).getD []
      (dictGet credentials (("sub").data), credentials)

/-- State of two request threads concurrently executing `fetch_keys` on a
shared `Authentication` instance.  A thread's program counter is 0 before
the staleness check (line 249), 1 after passing it but before entering the
`jwks_lock` body, and 2 when done.  `fetchCount` counts the JWKS HTTP
requests issued (line 252). -/
structure ConcState : Type where
  store : Authentication
  fetchCount : Nat
  pc0 : Nat
  pc1 : Nat
deriving DecidableEq, Repr

/-- One atomic step of thread `i`.  The staleness check reads the shared
state outside the lock; the whole `with self.jwks_lock` body runs as one
atomic action, which is faithful because the lock keeps the two bodies
mutually exclusive and the check only reads `jwks_uri` and
`jwks_expiration`, so a check interleaved inside another thread's body
observes either the value from before or from after that body's single
write to `jwks_expiration`, both of which this model also produces. -/
def stepThread (now : Int) (fetch : Except Unit JwksResp) (i : Bool)
    (s : ConcState) : ConcState :=
  let pc := if i then s.pc1 else s.pc0
  if pc = 0 then
    let pc' := if guardStale s.store now then 1 else 2
    if i then { s with pc1 := pc' } else { s with pc0 := pc' }
  else if pc = 1 then
    let r := fetch_keys_locked s.store now fetch
    if i then { s with store := r.1, fetchCount := s.fetchCount + 1, pc1 := 2 }
    else { s with store := r.1, fetchCount := s.fetchCount + 1, pc0 := 2 }
  else s

/-- Run a schedule: the list names, in order, which thread takes the next
atomic step. -/
def runSched (now : Int) (fetch : Except Unit JwksResp) :
    List Bool → ConcState → ConcState
  | [], s => s
  | i :: rest, s => runSched now fetch rest (stepThread now fetch i s)

/-- Initial concurrent state: both threads about to call `fetch_keys`. -/
def initConc (st : Authentication) : ConcState :=
  { store := st, fetchCount := 0, pc0 := 0, pc1 := 0 }

/-! ### Helper lemmas about the string primitives -/

theorem pySplitCh_no_sep (d : Char) (a : PyStr) (h : d ∉ a) : pySplitCh d a = [a] := by
  induction a with
  | nil => rfl
  | cons c cs ih =>
    have hcd : ¬ c = d := fun hh => h (hh ▸ List.mem_cons_self c cs)
    have htl : d ∉ cs := fun hh => h (List.mem_cons_of_mem c hh)
    simp [pySplitCh, hcd, ih htl]

theorem pySplitCh_ne_nil (d : Char) (s : PyStr) : pySplitCh d s ≠ [] := by
  induction s with
  | nil => simp [pySplitCh]
  | cons c cs ih =>
    by_cases hcd : c = d
    · simp [pySplitCh, hcd]
    · simp only [pySplitCh, if_neg hcd]
      rcases hsplit : pySplitCh d cs with _ | ⟨p, ps⟩
      · exact absurd hsplit ih
      · simp

theorem pySplitCh_append (d : Char) (a rest : PyStr) (h : d ∉ a) :
    pySplitCh d (a ++ d :: rest) = a :: pySplitCh d rest := by
  induction a with
  | nil => simp [pySplitCh]
  | cons c cs ih =>
    have hcd : ¬ c = d := fun hh => h (hh ▸ List.mem_cons_self c cs)
    have htl : d ∉ cs := fun hh => h (List.mem_cons_of_mem c hh)
    simp only [List.cons_append, pySplitCh, if_neg hcd, List.append_eq, ih htl]

theorem takeWhile_append_stop (p : Char → Bool) (l1 l2 : PyStr) (x : Char)
    (h1 : ∀ c ∈ l1, p c = true) (hx : p x = false) :
    (l1 ++ x :: l2).takeWhile p = l1 := by
  induction l1 with
  | nil => simp [List.takeWhile, hx]
  | cons c cs ih =>
    have hc : p c = true := h1 c (List.mem_cons_self c cs)
    have htl : ∀ a ∈ cs, p a = true := fun a ha => h1 a (List.mem_cons_of_mem c ha)
    simp [List.takeWhile, hc, ih htl]

theorem afterLastHash_append (pre tok : PyStr) (h : '#' ∉ tok) :
    afterLastHash (pre ++ '#' :: tok) = tok := by
  have hxx : (pre ++ '#' :: tok).reverse = tok.reverse ++ '#' :: pre.reverse := by
    simp [List.reverse_append]
  have hall : ∀ c ∈ tok.reverse, (decide (c ≠ '#')) = true := by
    intro c hc
    have hmem : c ∈ tok := List.mem_reverse.mp hc
    simp only [decide_eq_true_eq]
    exact fun hh => h (hh ▸ hmem)
  have htw : (tok.reverse ++ '#' :: pre.reverse).takeWhile (fun c => decide (c ≠ '#'))
      = tok.reverse :=
    takeWhile_append_stop _ _ _ _ hall (by simp)
  simp only [afterLastHash, hxx]
  rw [htw, List.reverse_reverse]

theorem dropWhile_all_false (p : Char → Bool) (l : PyStr)
    (h : ∀ c ∈ l, p c = false) : l.dropWhile p = l := by
  cases l with
  | nil => rfl
  | cons c cs => simp [List.dropWhile, h c (List.mem_cons_self c cs)]

theorem pyStrip_no_space (s : PyStr) (h : ∀ c ∈ s, isSpaceCh c = false) :
    pyStrip s = s := by
  have h1 : s.dropWhile isSpaceCh = s := dropWhile_all_false _ _ h
  have h2 : ∀ c ∈ s.reverse, isSpaceCh c = false := fun c hc => h c (List.mem_reverse.mp hc)
  simp [pyStrip, h1, dropWhile_all_false _ _ h2]

/-! ### Decimal rendering and parsing round trip -/

theorem digitChar_toNat (d : Nat) (h : d < 10) : (Char.ofNat (48 + d)).toNat = 48 + d := by
  interval_cases d <;> decide

theorem digitChar_isDigit (d : Nat) (h : d < 10) : isDigitCh (Char.ofNat (48 + d)) = true := by
  interval_cases d <;> decide

theorem isDigitCh_toNat (c : Char) (h : isDigitCh c = true) :
    48 ≤ c.toNat ∧ c.toNat ≤ 57 := by
  simpa [isDigitCh] using h

theorem isDigitCh_ascii (c : Char) (h : isDigitCh c = true) : c.toNat ≤ 127 := by
  have := isDigitCh_toNat c h
  omega

theorem isDigitCh_ne_hash (c : Char) (h : isDigitCh c = true) : c ≠ '#' := by
  intro hh
  subst hh
  exact absurd h (by decide)

theorem isDigitCh_ne_minus (c : Char) (h : isDigitCh c = true) : ¬ c = '-' := by
  intro hh
  subst hh
  exact absurd h (by decide)

theorem isDigitCh_ne_plus (c : Char) (h : isDigitCh c = true) : ¬ c = '+' := by
  intro hh
  subst hh
  exact absurd h (by decide)

theorem isDigitCh_not_space (c : Char) (h : isDigitCh c = true) : isSpaceCh c = false := by
  obtain ⟨h1, h2⟩ := isDigitCh_toNat c h
  simp only [isSpaceCh, Bool.or_eq_false_iff, decide_eq_false_iff_not]
  omega

theorem natToDecGo_all_digits (fuel : Nat) :
    ∀ (n : Nat) (acc : PyStr), (∀ c ∈ acc, isDigitCh c = true) →
      ∀ c ∈ natToDecGo fuel n acc, isDigitCh c = true := by
  induction fuel with
  | zero => intro n acc hacc c hc; exact hacc c hc
  | succ fuel ih =>
    intro n acc hacc c hc
    have hd : isDigitCh (Char.ofNat (48 + n % 10)) = true :=
      digitChar_isDigit _ (Nat.mod_lt _ (by norm_num))
    have hacc' : ∀ a ∈ (Char.ofNat (48 + n % 10) :: acc), isDigitCh a = true := by
      intro a ha
      rcases List.mem_cons.mp ha with rfl | ha
      · exact hd
      · exact hacc a ha
    by_cases hn : n < 10
    · simp only [natToDecGo, if_pos hn] at hc
      exact hacc' c hc
    · simp only [natToDecGo, if_neg hn] at hc
      exact ih (n / 10) _ hacc' c hc

theorem natToDec_all_digits (n : Nat) : ∀ c ∈ natToDec n, isDigitCh c = true :=
  natToDecGo_all_digits (n + 1) n [] (by intro c hc; cases hc)

theorem natToDecGo_shape (fuel : Nat) :
    ∀ (n : Nat) (acc : PyStr), 0 < fuel →
      ∃ l, natToDecGo fuel n acc = l ++ Char.ofNat (48 + n % 10) :: acc := by
  induction fuel with
  | zero => intro n acc h; exact absurd h (by omega)
  | succ fuel ih =>
    intro n acc _
    by_cases hn : n < 10
    · exact ⟨[], by simp [natToDecGo, if_pos hn]⟩
    · rcases Nat.eq_zero_or_pos fuel with rfl | hfuel
      · exact ⟨[], by simp [natToDecGo, if_neg hn]⟩
      · obtain ⟨l, hl⟩ := ih (n / 10) (Char.ofNat (48 + n % 10) :: acc) hfuel
        exact ⟨l ++ [Char.ofNat (48 + (n / 10) % 10)],
          by simp [natToDecGo, if_neg hn, hl]⟩

theorem natToDec_ne_nil (n : Nat) : natToDec n ≠ [] := by
  obtain ⟨l, hl⟩ := natToDecGo_shape (n + 1) n [] (by omega)
  simp [natToDec, hl]

theorem natToDecGo_foldl (fuel : Nat) :
    ∀ (n : Nat) (acc : PyStr), n < 10 ^ fuel →
      (natToDecGo fuel n acc).foldl (fun a c => a * 10 + (c.toNat - 48)) 0
        = acc.foldl (fun a c => a * 10 + (c.toNat - 48)) n := by
  induction fuel with
  | zero =>
    intro n acc h
    have hn0 : n = 0 := by simpa using h
    simp [natToDecGo, hn0]
  | succ fuel ih =>
    intro n acc h
    have hmod : n % 10 < 10 := Nat.mod_lt _ (by norm_num)
    have hchar : (Char.ofNat (48 + n % 10)).toNat - 48 = n % 10 := by
      rw [digitChar_toNat _ hmod]
      omega
    by_cases hn : n < 10
    · have hchar2 : (Char.ofNat (48 + n % 10)).toNat - 48 = n := by
        rw [hchar, Nat.mod_eq_of_lt hn]
      simp only [natToDecGo, if_pos hn, List.foldl_cons, hchar2, Nat.zero_mul, Nat.zero_add]
    · have hdiv : n / 10 < 10 ^ fuel := by
        rw [pow_succ, Nat.mul_comm] at h
        exact Nat.div_lt_of_lt_mul h
      simp only [natToDecGo, if_neg hn]
      rw [ih (n / 10) _ hdiv]
      simp only [List.foldl_cons, hchar]
      have heq : n / 10 * 10 + n % 10 = n := by omega
      rw [heq]

theorem decToNat_natToDec (n : Nat) : decToNat (natToDec n) = n := by
  have hlt : n < 10 ^ (n + 1) := by
    calc n < 10 ^ n := Nat.lt_pow_self (by norm_num) n
    _ ≤ 10 ^ (n + 1) := Nat.pow_le_pow_right (by norm_num) (Nat.le_succ n)
  have hfold := natToDecGo_foldl (n + 1) n [] hlt
  simpa [natToDec, decToNat] using hfold

theorem natToDec_hash_free (n : Nat) : '#' ∉ natToDec n := by
  intro h
  exact isDigitCh_ne_hash '#' (natToDec_all_digits n '#' h) rfl

theorem pyIsDigit_natToDec (n : Nat) : pyIsDigit (natToDec n) = true := by
  simp only [pyIsDigit, Bool.and_eq_true, decide_eq_true_eq, ne_eq, List.all_eq_true]
  exact ⟨by simpa using natToDec_ne_nil n, natToDec_all_digits n⟩

theorem pyParseInt_natToDec (n : Nat) : pyParseInt (natToDec n) = some (n : Int) := by
  have hdigits := natToDec_all_digits n
  have hstrip : pyStrip (natToDec n) = natToDec n :=
    pyStrip_no_space _ (fun c hc => isDigitCh_not_space c (hdigits c hc))
  rcases hshape : natToDec n with _ | ⟨c, cs⟩
  · exact absurd hshape (natToDec_ne_nil n)
  · have hcd : isDigitCh c = true := hdigits c (hshape ▸ List.mem_cons_self c cs)
    have hmin : ¬ c = '-' := isDigitCh_ne_minus c hcd
    have hplus : ¬ c = '+' := isDigitCh_ne_plus c hcd
    have hdig : pyIsDigit (c :: cs) = true := hshape ▸ pyIsDigit_natToDec n
    have hval : decToNat (c :: cs) = n := hshape ▸ decToNat_natToDec n
    rw [hshape] at hstrip
    rw [pyParseInt, hstrip]
    simp [if_neg hmin, if_neg hplus, hdig, hval]

theorem pyAscii_append (a b : PyStr) :
    pyAscii (a ++ b) = (pyAscii a && pyAscii b) := by
  simp [pyAscii]

theorem pyAscii_natToDec (n : Nat) : pyAscii (natToDec n) = true := by
  simp only [pyAscii, List.all_eq_true, decide_eq_true_eq]
  exact fun c hc => isDigitCh_ascii c (natToDec_all_digits n c hc)

theorem pyAscii_stateBytes (sid stid : Nat) (aid : PyStr) (h : pyAscii aid = true) :
    pyAscii (stateBytes sid stid (some aid)) = true := by
  simp only [stateBytes, Option.getD_some, pyAscii, List.all_eq_true, List.mem_append,
    List.mem_cons, decide_eq_true_eq] at h ⊢
  intro c hc
  rcases hc with hc | rfl | hc
  · have := pyAscii_natToDec sid
    simp only [pyAscii, List.all_eq_true, decide_eq_true_eq] at this
    exact this c hc
  · decide
  · rcases hc with hc | rfl | hc
    · have := pyAscii_natToDec stid
      simp only [pyAscii, List.all_eq_true, decide_eq_true_eq] at this
      exact this c hc
    · decide
    · exact h c hc

theorem pySplitCh_stateBytes (sid stid : Nat) (aid : PyStr) (h : '#' ∉ aid) :
    pySplitCh '#' (stateBytes sid stid (some aid))
      = [natToDec sid, natToDec stid, aid] := by
  simp only [stateBytes, Option.getD_some]
  rw [pySplitCh_append '#' (natToDec sid) _ (natToDec_hash_free sid),
      pySplitCh_append '#' (natToDec stid) _ (natToDec_hash_free stid),
      pySplitCh_no_sep '#' aid h]

/-! ### Dict lemmas -/

theorem dictGet_dictSet_self {β : Type} (d : List (PyStr × β)) (k : PyStr) (v : β) :
    dictGet (dictSet d k v) k = some v := by
  induction d with
  | nil => simp [dictGet, dictSet]
  | cons kv rest ih =>
    by_cases hk : kv.1 = k
    · simp [dictSet, dictGet, hk]
    · simp [dictSet, dictGet, hk, ih]

theorem dictSet_ne_nil {β : Type} (d : List (PyStr × β)) (k : PyStr) (v : β) :
    dictSet d k v ≠ [] := by
  cases d with
  | nil => simp [dictSet]
  | cons kv rest =>
    by_cases hk : kv.1 = k
    · simp [dictSet, hk]
    · simp [dictSet, hk]

theorem dictGet_map_self {β : Type} (g : PyStr → β) (l : List PyStr) (e : PyStr)
    (h : e ∈ l) : dictGet (l.map fun x => (x, g x)) e = some (g e) := by
  induction l with
  | nil => cases h
  | cons x xs ih =>
    rcases List.mem_cons.mp h with rfl | hmem
    · simp [dictGet]
    · by_cases hx : x = e
      · subst hx; simp [dictGet]
      · simp [dictGet, hx, ih hmem]

theorem dictGet_filter_single (credentials : List (PyStr × PyStr)) (k : PyStr) :
    dictGet (filter_credentials credentials [k]) k = dictGet credentials k := by
  induction credentials with
  | nil => rfl
  | cons kv rest ih =>
    simp only [filter_credentials] at ih ⊢
    simp only [List.mem_singleton] at ih ⊢
    by_cases hk : kv.1 = k
    · rw [List.filter_cons]
      simp [dictGet, hk, ih]
    · rw [List.filter_cons]
      simp [dictGet, hk, ih]

/-! ### Concurrency bound -/

/-- Fetches still possible: threads whose program counter has not passed
the locked body can contribute at most one fetch each. -/
def concPotential (s : ConcState) : Nat :=
  s.fetchCount + (if s.pc0 ≤ 1 then 1 else 0) + (if s.pc1 ≤ 1 then 1 else 0)

theorem stepThread_potential (now : Int) (f : Except Unit JwksResp) (i : Bool)
    (s : ConcState) : concPotential (stepThread now f i s) ≤ concPotential s := by
  cases i <;>
    simp only [stepThread, concPotential] <;>
    split_ifs <;>
    simp_all

theorem runSched_potential (now : Int) (f : Except Unit JwksResp) (sched : List Bool) :
    ∀ s : ConcState, concPotential (runSched now f sched s) ≤ concPotential s := by
  induction sched with
  | nil => intro s; exact le_refl _
  | cons i rest ih =>
    intro s
    exact le_trans (ih (stepThread now f i s)) (stepThread_potential now f i s)

/-! ### Claim C2 -/

/-- A configured, initially stale key store. -/
def c2store : Authentication :=
  { jwks_uri := some (("https://idp/jwks").data), signing_keys := [],
    jwks_expiration := some 10, issuer := none, endpoints := [] }

/-- A JWKS response whose `Cache-Control` header carries no numeric
`max-age`. -/
def c2resp : Except Unit JwksResp :=
  .ok { keys := [{ kid := some (("k1").data), material := ("K").data }],
        cacheControl := some (("no-store").data) }

/-- C2, counterexample.  A refresh whose `Cache-Control` header has no
numeric `max-age` leaves `jwks_expiration = None`; contrary to the claim,
the next `fetch_keys` call then performs no JWKS fetch at all, because the
staleness guard requires a truthy expiration. -/
theorem fetch_keys_null_expiration_cex :
    (fetch_keys c2store 100 c2resp).2.1 = true ∧
    (fetch_keys c2store 100 c2resp).1.jwks_expiration = none ∧
    (fetch_keys (fetch_keys c2store 100 c2resp).1 200 c2resp).2.1 = false := by
  decide

/-- C2 (amended): when the stored key-set expiration is null, `fetch_keys`
is a no-op — it performs no JWKS fetch regardless of elapsed time and
leaves the state unchanged; a null expiration means the key set is never
considered stale, not always. -/
theorem fetch_keys_null_expiration_no_fetch (st : Authentication) (now : Int)
    (f : Except Unit JwksResp) (h : st.jwks_expiration = none) :
    fetch_keys st now f = (st, false, none) := by
  simp [fetch_keys, guardStale, h, truthyExpiration]

/-- A configured key store whose expiration is null. -/
def c2wstore : Authentication :=
  { jwks_uri := some (("https://idp/jwks").data), signing_keys := [],
    jwks_expiration := none, issuer := none, endpoints := [] }

/-- Witness for `fetch_keys_null_expiration_no_fetch` at a concrete
store. -/
theorem fetch_keys_null_expiration_no_fetch_witness :
    fetch_keys c2wstore 100 c2resp = (c2wstore, false, none) :=
  fetch_keys_null_expiration_no_fetch c2wstore 100 c2resp rfl

/-! ### Claim C6 -/

/-- A stale store holding one signing key. -/
def c6store : Authentication :=
  { jwks_uri := some (("https://idp/jwks").data),
    signing_keys := [(("old").data, ("K1").data)],
    jwks_expiration := some 10, issuer := none, endpoints := [] }

/-- A JWKS response with a fresh key set but no `Cache-Control` header,
so `certs.headers['Cache-Control']` raises `KeyError`. -/
def c6resp : Except Unit JwksResp :=
  .ok { keys := [{ kid := some (("new").data), material := ("K2").data }],
        cacheControl := none }

/-- C6, counterexample.  A refresh that raises while processing the
response (missing `Cache-Control` header) does NOT leave the previous key
mapping in place: the `signing_keys` assignment has already happened when
the header is read, so the failed refresh exits with the new mapping and
the old expiration — refuting "keys are replaced only on a fully
successful refresh". -/
theorem fetch_keys_partial_failure_cex :
    (fetch_keys c6store 100 c6resp).2.2 = some PyExn.keyError ∧
    (fetch_keys c6store 100 c6resp).1.signing_keys = [(("new").data, ("K2").data)] ∧
    (fetch_keys c6store 100 c6resp).1.signing_keys ≠ c6store.signing_keys ∧
    (fetch_keys c6store 100 c6resp).1.jwks_expiration = c6store.jwks_expiration := by
  decide

/-- C6 (amended): a refresh that fails before the key assignment — the
JWKS fetch itself raising, or the key-id extraction raising `KeyError` —
leaves the store completely unchanged (keys are never cleared before
fetching); only a failure after the assignment (while reading the
`Cache-Control` header) can leave the new mapping with the old
expiration. -/
theorem fetch_keys_early_failure_preserves_store (st : Authentication) (now : Int)
    (f : Except Unit JwksResp)
    (h : f = Except.error () ∨ ∃ certs, f = Except.ok certs ∧ extractKids certs.keys = none) :
    (fetch_keys st now f).1 = st := by
  rcases h with rfl | ⟨certs, rfl, hk⟩
  · by_cases hg : guardStale st now <;> simp [fetch_keys, fetch_keys_locked, hg]
  · by_cases hg : guardStale st now <;> simp [fetch_keys, fetch_keys_locked, hg, hk]

/-- Witness for `fetch_keys_early_failure_preserves_store`: a transport
failure leaves the concrete store untouched. -/
theorem fetch_keys_early_failure_preserves_store_witness :
    (fetch_keys c6store 100 (Except.error ())).1 = c6store :=
  fetch_keys_early_failure_preserves_store c6store 100 (Except.error ()) (Or.inl rfl)

/-! ### Claim C9 -/

/-- A configured, stale store shared by the two threads. -/
def c9store : Authentication :=
  { jwks_uri := some (("https://idp/jwks").data), signing_keys := [],
    jwks_expiration := some 10, issuer := none, endpoints := [] }

/-- A JWKS response with a numeric `max-age`, so each completed refresh
makes the store fresh again. -/
def c9resp : Except Unit JwksResp :=
  .ok { keys := [{ kid := some (("k").data), material := ("K").data }],
        cacheControl := some (("max-age=60").data) }

/-- C9, counterexample.  Two concurrent callers of `fetch_keys` on a
stale store: in the interleaving where both pass the staleness check
(which the source performs OUTSIDE the lock) before either enters the
locked body, two JWKS HTTP fetches are performed — refuting "exactly one
fetch".  The lock serializes the bodies but does not coalesce them. -/
theorem concurrent_refresh_two_fetches_cex :
    (runSched 100 c9resp [false, true, false, true] (initConc c9store)).fetchCount = 2 ∧
    (runSched 100 c9resp [false, true, false, true] (initConc c9store)).fetchCount ≠ 1 := by
  decide

/-- C9 (amended): because the staleness check precedes lock acquisition,
N concurrent stale callers are not coalesced into a single fetch; the
guarantee the lock does give is that each caller fetches at most once, so
any schedule of the two concurrent callers performs at most two fetches
(at most N for N callers), the bodies being serialized by the lock. -/
theorem concurrent_refresh_at_most_two (st : Authentication) (now : Int)
    (f : Except Unit JwksResp) (sched : List Bool) :
    (runSched now f sched (initConc st)).fetchCount ≤ 2 := by
  have hpot := runSched_potential now f sched (initConc st)
  have hinit : concPotential (initConc st) = 2 := by simp [concPotential, initConc]
  have hfinal : (runSched now f sched (initConc st)).fetchCount
      ≤ concPotential (runSched now f sched (initConc st)) := by
    simp only [concPotential]
    omega
  omega

/-! ### Claim C4 -/

/-- A configuration in which every endpoint, including
`end_session_endpoint`, has an explicitly configured URL. -/
def c4store : Authentication :=
  { jwks_uri := none, signing_keys := [], jwks_expiration := none, issuer := none,
    endpoints :=
      [(("authorization_endpoint").data, some (("https://cfg/auth").data)),
       (("token_endpoint").data, some (("https://cfg/token").data)),
       (("discovery_endpoint").data, some (("https://cfg/disc").data)),
       (("userinfo_endpoint").data, some (("https://cfg/user").data)),
       (("end_session_endpoint").data, some (("https://cfg/logout").data))] }

/-- A discovery document that carries the two required endpoints but no
`end_session_endpoint` member. -/
def c4doc : DiscoveryDoc :=
  { issuer := some (("https://idp").data),
    fields := [(("authorization_endpoint").data, ("https://idp/auth").data),
               (("token_endpoint").data, ("https://idp/token").data)] }

/-- C4, counterexample.  After the discovery document is processed, the
`end_session_endpoint` that was absent from the document is `None` in the
endpoint mapping — the previously configured value has been discarded,
refuting "absent fields leave the previously configured endpoint values in
place". -/
theorem discovery_absent_field_cex :
    (exceptGet? (handle_start_discovery c4store 50 (.ok c4doc))).map
        (fun x => dictGet x.endpoints (("end_session_endpoint").data)) = some (some none) ∧
    dictGet c4store.endpoints (("end_session_endpoint").data)
      = some (some (("https://cfg/logout").data)) ∧
    some (some (none : Option PyStr)) ≠ some (some (some (("https://cfg/logout").data))) := by
  decide

/-- C4 (amended): processing the discovery document replaces the endpoint
mapping wholesale — every endpoint takes exactly the document's value, so
a field absent from the document leaves that endpoint `None`, discarding
any previously configured URL; only `jwks_uri` is treated incrementally:
a configured value is kept, and the document's value is adopted only when
none was configured and the document's value is truthy. -/
theorem discovery_overlay_wholesale (a : Authentication) (now : Int)
    (r : DiscoveryDoc) (iss e : PyStr)
    (hiss : r.issuer = some iss)
    (hconf : truthyOptStr (create_discovery_request a) = true)
    (he : e ∈ ENDPOINTS) :
    ∃ a', handle_start_discovery a now (Except.ok r) = Except.ok a' ∧
      dictGet a'.endpoints e = some (dictGet r.fields e) ∧
      (truthyOptStr a.jwks_uri = true → a'.jwks_uri = a.jwks_uri) ∧
      (∀ j, truthyOptStr a.jwks_uri = false → dictGet r.fields (("jwks_uri").data) = some j →
        j ≠ [] → a'.jwks_uri = some j) := by
  simp only [handle_start_discovery, hconf, if_pos, hiss]
  rcases hj : dictGet r.fields (("jwks_uri").data) with _ | j
  · refine ⟨_, rfl, ?_, ?_, ?_⟩
    · exact dictGet_map_self _ _ _ he
    · intro _; rfl
    · intro j _ hj2 _; cases hj2
  · by_cases hcase : j ≠ [] ∧ ¬ truthyOptStr a.jwks_uri = true
    · simp only [if_pos hcase]
      refine ⟨_, rfl, ?_, ?_, ?_⟩
      · exact dictGet_map_self _ _ _ he
      · intro htr; exact absurd htr hcase.2
      · intro j2 _ hj2 _
        cases hj2
        rfl
    · simp only [if_neg hcase]
      refine ⟨_, rfl, ?_, ?_, ?_⟩
      · exact dictGet_map_self _ _ _ he
      · intro _; rfl
      · intro j2 hfalse hj2 hne
        cases hj2
        exact absurd ⟨hne, by simp [hfalse]⟩ hcase

/-- Witness for `discovery_overlay_wholesale` at the concrete
configuration and document. -/
theorem discovery_overlay_wholesale_witness :
    ∃ a', handle_start_discovery c4store 50 (Except.ok c4doc) = Except.ok a' ∧
      dictGet a'.endpoints (("end_session_endpoint").data)
        = some (dictGet c4doc.fields (("end_session_endpoint").data)) ∧
      (truthyOptStr c4store.jwks_uri = true → a'.jwks_uri = c4store.jwks_uri) ∧
      (∀ j, truthyOptStr c4store.jwks_uri = false →
        dictGet c4doc.fields (("jwks_uri").data) = some j → j ≠ [] → a'.jwks_uri = some j) :=
  discovery_overlay_wholesale c4store 50 c4doc (("https://idp").data)
    (("end_session_endpoint").data) rfl (by decide) (by decide)

/-! ### Claim C5 -/

/-- A non-empty (hence truthy) host session. -/
def c5session : Session := [(("k").data, [])]

/-- A credential set carrying more than the subject. -/
def c5credentials : List (PyStr × PyStr) :=
  [(("sub").data, ("u1").data), (("access_token").data, ("t").data)]

/-- C5, counterexample.  Storing credentials in session mode writes
nothing under the key `'credentials'`; what is written sits under
`'nagare.credentials'` and is only the `sub` entry, not the full
credential set — refuting both the claimed key and the claimed content. -/
theorem store_credentials_cex :
    (store_credentials false (some c5session) c5credentials).map
        (fun s => dictGet s (("credentials").data)) = some none ∧
    (store_credentials false (some c5session) c5credentials).map
        (fun s => dictGet s (("nagare.credentials").data))
      = some (some [(("sub").data, ("u1").data)]) ∧
    some (some [(("sub").data, ("u1").data)]) ≠ some (some c5credentials) := by
  decide

/-- C5 (amended): in session mode, storing writes only the credential
set's `sub` entry (`filter_credentials` with `{'sub'}`) into the session
under the key `'nagare.credentials'`; retrieving then returns that
filtered set, with the credential set's `sub` value as the subject. -/
theorem store_retrieve_filtered_sub (s : Session)
    (credentials : List (PyStr × PyStr)) (hs : s ≠ []) :
    store_credentials false (some s) credentials
      = some (dictSet s (("nagare.credentials").data)
          (filter_credentials credentials [("sub").data])) ∧
    retrieve_credentials false (store_credentials false (some s) credentials)
      = (dictGet credentials (("sub").data),
         filter_credentials credentials [("sub").data]) := by
  have hstore : store_credentials false (some s) credentials
      = some (dictSet s (("nagare.credentials").data)
          (filter_credentials credentials [("sub").data])) := by
    simp [store_credentials, hs]
  refine ⟨hstore, ?_⟩
  rw [hstore]
  have hne := dictSet_ne_nil s (("nagare.credentials").data)
    (filter_credentials credentials [("sub").data])
  simp only [retrieve_credentials]
  rw [if_neg (by simp [hne])]
  rw [dictGet_dictSet_self]
  simp only [Option.getD_some]
  rw [dictGet_filter_single]

/-- Witness for `store_retrieve_filtered_sub` at the concrete session and
credentials. -/
theorem store_retrieve_filtered_sub_witness :
    store_credentials false (some c5session) c5credentials
      = some (dictSet c5session (("nagare.credentials").data)
          (filter_credentials c5credentials [("sub").data])) ∧
    retrieve_credentials false (store_credentials false (some c5session) c5credentials)
      = (dictGet c5credentials (("sub").data),
         filter_credentials c5credentials [("sub").data]) :=
  store_retrieve_filtered_sub c5session c5credentials (by decide)

/-! ### Claim C7 -/

/-- C7, counterexample.  A callback whose state parameter is malformed in
a way `decode` cannot even start on — a non-ASCII suffix, here `'é'` — is
not treated as "no code": `state.encode('ascii')` raises
`UnicodeEncodeError`, a hard error to the caller, refuting "never turns
the failure into a hard error". -/
theorem is_auth_response_nonascii_cex :
    is_auth_response (fun _ => Except.error ())
        [(("code").data, ("c").data), (("state").data, ['#', 'é'])]
      = Except.error PyExn.unicodeError ∧
    (Except.error PyExn.unicodeError
      ≠ (Except.ok (none, 0, 0, []) : Except PyExn (Option PyStr × Int × Int × PyStr))) :=
  ⟨rfl, fun h => Except.noConfusion h⟩

/-- C7 (amended): when the failure is the authenticated decryption
rejecting the (ASCII) state suffix with `InvalidToken`, `is_auth_response`
does null out the code and reports the defaults `(None, 0, 0, '')`
without raising; malformed states outside that class (non-ASCII suffix,
or a decrypted blob without exactly three numeric-id fields) raise
instead. -/
theorem invalid_state_nulls_code (decrypt : PyStr → Except Unit PyStr)
    (c st : PyStr) (hc : c ≠ [])
    (hsw : startsWithHash st = true)
    (hascii : pyAscii (afterLastHash st) = true)
    (hdec : decrypt (afterLastHash st) = Except.error ()) :
    is_auth_response decrypt [(("code").data, c), (("state").data, st)]
      = Except.ok (none, 0, 0, []) := by
  have hstate : dictGet [(("code").data, c), (("state").data, st)] (("state").data)
      = some st := rfl
  have hcode : dictGet [(("code").data, c), (("state").data, st)] (("code").data)
      = some c := rfl
  simp only [is_auth_response, hstate, hcode, Option.getD_some]
  rw [if_pos ⟨by simp [truthyCode, hc], hsw⟩, if_pos hascii, hdec]

/-- Witness for `invalid_state_nulls_code` on a concrete rejecting
decryptor. -/
theorem invalid_state_nulls_code_witness :
    is_auth_response (fun _ => Except.error ())
        [(("code").data, ("c").data), (("state").data, ("#x").data)]
      = Except.ok (none, 0, 0, []) :=
  invalid_state_nulls_code (fun _ => Except.error ()) (("c").data) (("#x").data)
    (by decide) (by decide) (by decide) rfl

/-! ### Claim C10 -/

/-- C10: when the `code` query parameter is absent, or the `state` query
parameter does not start with `'#'`, `is_auth_response` returns the raw
code (`None` when absent) with the defaults `session_id = 0`,
`ui_state_id = 0` and empty `action_id`, and performs no decryption — the
result is the same for every decryptor. -/
theorem no_code_or_malformed_state_defaults (decrypt : PyStr → Except Unit PyStr)
    (params : List (PyStr × PyStr))
    (h : dictGet params (("code").data) = none ∨
         startsWithHash ((dictGet params (("state").data)).getD []) = false) :
    is_auth_response decrypt params
      = Except.ok (dictGet params (("code").data), 0, 0, []) := by
  have hneg : ¬ (truthyCode (dictGet params (("code").data)) = true ∧
      startsWithHash ((dictGet params (("state").data)).getD []) = true) := by
    rintro ⟨h1, h2⟩
    rcases h with h | h
    · rw [h] at h1
      exact absurd h1 (by simp [truthyCode])
    · rw [h] at h2
      cases h2
  simp only [is_auth_response, if_neg hneg]

/-- Witness for `no_code_or_malformed_state_defaults`: a request with no
`code` parameter. -/
theorem no_code_or_malformed_state_defaults_witness :
    is_auth_response (fun _ => Except.error ()) [(("state").data, ("x").data)]
      = Except.ok (none, 0, 0, []) :=
  no_code_or_malformed_state_defaults (fun _ => Except.error ())
    [(("state").data, ("x").data)] (Or.inl rfl)

/-! ### Claim C1 -/

/-- The spec's scenario input: the token endpoint answers the
authorization-code exchange with HTTP 400 and the JSON body
`{"error": "invalid_grant"}`. -/
def c1resp : TokenHttpResp :=
  { status_code := 400, content_type := some (("application/json").data),
    body := some { id_token := none, access_token := none, refresh_token := none,
                   error := some (("invalid_grant").data), error_description := none },
    text := ("error").data }

/-- C1: on an HTTP 400 answer to the code exchange, `request_credentials`
raises `HTTPError` to its caller — `send_request` applies
`raise_for_status`, which raises for every status in `[400, 600)`, before
the method's own 400-handling branch can run, so that branch is dead code
and no log-and-fall-back happens, whichever JOSE collaborators and key
set are in play. -/
theorem request_credentials_400_raises
    (getHeader : PyStr → Except Unit (List (PyStr × PyStr)))
    (jwtDecode : KeyChoice → PyStr → Except Unit (List (PyStr × PyStr)))
    (signing_keys : List (PyStr × PyStr)) :
    request_credentials getHeader jwtDecode signing_keys c1resp
      = Except.error PyExn.httpError := rfl

/-! ### Claim C3 -/

/-- A successful token response carrying an ID token and an access
token. -/
def c3resp : TokenHttpResp :=
  { status_code := 200, content_type := some (("application/json").data),
    body := some { id_token := some (("JWT").data), access_token := some (("AT").data),
                   refresh_token := none, error := none, error_description := none },
    text := [] }

/-- Verified ID-token claims containing the protocol-reserved claims
`iss`, `aud` and `exp` alongside `sub` — exactly what `jose.jwt.decode`
returns for a valid token. -/
def c3claims : List (PyStr × PyStr) :=
  [(("sub").data, ("u1").data), (("iss").data, ("https://idp").data),
   (("aud").data, ("client").data), (("exp").data, ("999").data)]

/-- C3: the credential set returned by `request_credentials` after a
successful verification still contains the reserved claim `iss` (a member
of `EXCLUDED_CLAIMS`) — the stripping the claim describes never happens,
`EXCLUDED_CLAIMS` being defined but never applied anywhere in the module;
`sub` is retained as claimed. -/
theorem reserved_claims_not_stripped :
    (exceptGet? (request_credentials (fun _ => Except.ok [])
        (fun _ _ => Except.ok c3claims) [] c3resp)).bind
        (fun cr => dictGet cr (("iss").data)) = some (("https://idp").data) ∧
    ("iss").data ∈ EXCLUDED_CLAIMS ∧
    (exceptGet? (request_credentials (fun _ => Except.ok [])
        (fun _ _ => Except.ok c3claims) [] c3resp)).bind
        (fun cr => dictGet cr (("sub").data)) = some (("u1").data) := by
  decide

/-! ### Claim C8 -/

/-- C8: the state round trip.  For a valid triple — numeric ids and an
ASCII, `#`-free action id — decoding, by `is_auth_response`, the `state`
parameter built by `create_auth_request` recovers exactly
`(session_id, ui_state_id, action_id)` (together with the raw code),
under the collaborator contract that `decrypt` inverts `encrypt` and the
token it produces is ASCII without `#`. -/
theorem state_roundtrip (encrypt : PyStr → PyStr) (decrypt : PyStr → Except Unit PyStr)
    (ident c : PyStr) (sid stid : Nat) (aid : PyStr)
    (hc : c ≠ [])
    (haidA : pyAscii aid = true) (haidH : '#' ∉ aid)
    (htokH : '#' ∉ encrypt (stateBytes sid stid (some aid)))
    (htokA : pyAscii (encrypt (stateBytes sid stid (some aid))) = true)
    (hinv : decrypt (encrypt (stateBytes sid stid (some aid)))
      = Except.ok (stateBytes sid stid (some aid))) :
    is_auth_response decrypt
        [(("code").data, c),
         (("state").data, create_auth_request_state encrypt ident sid stid (some aid))]
      = Except.ok (some c, (sid : Int), (stid : Int), aid) := by
  have hstate : dictGet
      [(("code").data, c),
       (("state").data, create_auth_request_state encrypt ident sid stid (some aid))]
      (("state").data) = some (create_auth_request_state encrypt ident sid stid (some aid)) := rfl
  have hcode : dictGet
      [(("code").data, c),
       (("state").data, create_auth_request_state encrypt ident sid stid (some aid))]
      (("code").data) = some c := rfl
  have hpre : create_auth_request_state encrypt ident sid stid (some aid)
      = ('#' :: ident) ++ '#' :: encrypt (stateBytes sid stid (some aid)) := by
    simp [create_auth_request_state]
  have hafter : afterLastHash (create_auth_request_state encrypt ident sid stid (some aid))
      = encrypt (stateBytes sid stid (some aid)) := by
    rw [hpre]
    exact afterLastHash_append _ _ htokH
  have hsw : startsWithHash (create_auth_request_state encrypt ident sid stid (some aid))
      = true := rfl
  have hbytesA : pyAscii (stateBytes sid stid (some aid)) = true :=
    pyAscii_stateBytes sid stid aid haidA
  have hsplit : pySplitCh '#' (stateBytes sid stid (some aid))
      = [natToDec sid, natToDec stid, aid] :=
    pySplitCh_stateBytes sid stid aid haidH
  simp only [is_auth_response, hstate, hcode, Option.getD_some]
  rw [if_pos ⟨by simp [truthyCode, hc], hsw⟩]
  rw [hafter, if_pos htokA, hinv]
  simp only [hbytesA, if_true, hsplit, pyParseInt_natToDec]

/-- The concrete collaborators for the round-trip witness: an opaque
constant token and the matching pointwise inverse. -/
def c8encrypt : PyStr → PyStr := fun _ => ("T").data

/-- Pointwise inverse of `c8encrypt` at the encoded triple `(3, 5, "a")`. -/
def c8decrypt : PyStr → Except Unit PyStr :=
  fun _ => Except.ok (stateBytes 3 5 (some (("a").data)))

/-- Witness for `state_roundtrip` at the triple `(3, 5, "a")`. -/
theorem state_roundtrip_witness :
    is_auth_response c8decrypt
        [(("code").data, ("c").data),
         (("state").data,
          create_auth_request_state c8encrypt (("oidc").data) 3 5 (some (("a").data)))]
      = Except.ok (some (("c").data), (3 : Int), (5 : Int), ("a").data) :=
  state_roundtrip c8encrypt c8decrypt (("oidc").data) (("c").data) 3 5 (("a").data)
    (by decide) (by decide) (by decide) (by decide) (by decide) rfl
